import Mathlib

/-
Shallow embedding of `src/train_val.py` (BRDNet training/validation driver).

Conventions of the embedding:
* Tensors are flattened to `List ℚ`; float arithmetic is idealised as exact
  rational arithmetic, and `torch.log10` as `Real.logb 10`.
* The model architecture (`BRDNet`), the optimizer update and the dataset are
  external collaborators: they are abstracted as parameters (`forward`,
  `optStep`, a list of batches).
* Python's in-place mutation of the shared `args` object is modelled by
  returning the updated `Args` record from `train`/`val`.
* Fallible code (NameError on an empty loop, ZeroDivisionError) is modelled
  with `Except`.
-/

namespace BRDNet

/-- Uncaught Python errors that the driver can raise on degenerate inputs:
`NameError` (reading `batch_i` when the loop body never ran) and
`ZeroDivisionError` (dividing by `len(dataloader)` when it is zero). -/
inductive TVErr where
  | nameError
  | zeroDivisionError
  deriving DecidableEq, Repr

/-- One dataset sample as yielded by the dataloader: the noisy input patch
tensor and the ground-truth patch tensor, flattened to rational lists.  The
third component of the Python triple (the identifier) is dropped: it is bound
to `_` in both loops and never used. -/
structure Batch where
  inp : List ℚ
  gt : List ℚ
  deriving DecidableEq, Repr

/-- The parsed argument object produced by `get_args` (src/train_val.py lines
16-43): one field per `add_argument` call, in source order.  `argparse`
`type=int` fields are modelled as `ℕ` (all defaults are non-negative) and
`type=float` as `ℚ`. -/
structure Args where
  mode : String
  pretrained : String
  train_path : String
  val_path : String
  save_dir : String
  result_fig : Bool
  transform : Bool
  patch_n : ℕ
  patch_size : ℕ
  batch_size : ℕ
  num_epochs : ℕ
  print_iters : ℕ
  decay_iters : ℕ
  save_interval : ℕ
  test_interval : ℕ
  lr : ℚ
  device : String
  num_workers : ℕ
  multi_gpu : Bool
  deriving DecidableEq, Repr

/-- The default values of every CLI flag, as written in `get_args`. -/
def defaultArgs : Args where
  mode := "train"
  pretrained := ""
  train_path := "data/image_path/train.txt"
  val_path := "data/image_path/val.txt"
  save_dir := "./ckpt/1"
  result_fig := true
  transform := false
  patch_n := 10
  patch_size := 50
  batch_size := 16
  num_epochs := 50
  print_iters := 20
  decay_iters := 3000
  save_interval := 1
  test_interval := 1
  lr := 1/1000
  device := "cpu"
  num_workers := 2
  multi_gpu := false

/-- The loss function `nn.MSELoss()` with its default mean reduction: the mean of the squared
elementwise differences (the two tensors always have equal element counts in
the driver, so zipping is exact). -/
def mseLoss (p g : List ℚ) : ℚ :=
  (((p.zip g).map (fun q => (q.1 - q.2) ^ 2)).sum) / p.length

/-- The reshape `Tensor.view(-1, 1, patch_size, patch_size)` reorganises shape metadata
only; the flattened element sequence is unchanged, and every downstream
operation in the driver (`MSELoss` mean, `log10`) depends only on the
flattened data, so on flattened tensors the view is the identity. -/
def viewPatches (t : List ℚ) : List ℚ := t

/-- The model state visible to the driver: its learnable parameters and the
train/eval mode flag toggled by `model.train()` / `model.eval()`.  The forward
computation itself is the external `BRDNet` collaborator, abstracted as a
function of the parameters. -/
structure Model (P : Type) where
  params : P
  training : Bool
  deriving DecidableEq, Repr

/-- The per-batch training loss (src/train_val.py lines 51-57): the reshape of
input and ground truth is guarded by the truthiness test `if args.patch_size:`
(true exactly when `patch_size ≠ 0`), then the forward pass on the input and
`MSELoss` against the ground truth. -/
def trainBatchLoss {P : Type} (forward : P → List ℚ → List ℚ) (p : P)
    (args : Args) (b : Batch) : ℚ :=
  let inp := if args.patch_size ≠ 0 then viewPatches b.inp else b.inp
  let gt := if args.patch_size ≠ 0 then viewPatches b.gt else b.gt
  mseLoss (forward p inp) gt

/-- The batch loop of `train` (lines 50-62): for each batch, compute the loss
with the current parameters, then `optimizer.zero_grad()`, `loss.backward()`,
`optimizer.step()` update the parameters (abstracted as `optStep`);
`total_loss` accumulates `loss.item()` and the count tracks `batch_i + 1`.
Returns (final parameters, total loss, number of batches processed). -/
def trainLoop {P : Type} (forward : P → List ℚ → List ℚ) (optStep : P → Batch → P)
    (args : Args) : List Batch → P → ℚ → ℕ → P × ℚ × ℕ
  | [], p, tot, k => (p, tot, k)
  | b :: bs, p, tot, k =>
      trainLoop forward optStep args bs (optStep p b)
        (tot + trainBatchLoss forward p args b) (k + 1)

/-- The sequence of per-batch training losses, with the parameters evolving by
one `optStep` per batch — the values that `train` accumulates into
`total_loss`. -/
def batchLosses {P : Type} (forward : P → List ℚ → List ℚ) (optStep : P → Batch → P)
    (args : Args) : List Batch → P → List ℚ
  | [], _ => []
  | b :: bs, p => trainBatchLoss forward p args b :: batchLosses forward optStep args bs (optStep p b)

/-- What a call to `train` leaves behind: its return value (or the uncaught
error), the model state, and the `args` object (mutated in place in Python). -/
structure TrainOut (P : Type) where
  result : Except TVErr ℚ
  model : Model P
  args : Args

/-- The `train` function (src/train_val.py lines 46-74).  Line 47 assigns
`args.device = 'cpu'` on the shared args object; `model.train()` sets the
training flag; the final `return total_loss / (batch_i + 1)` raises
`NameError` when the loop body never ran (`batch_i` is then unbound), which is
modelled by the match on the processed-batch count. -/
def train {P : Type} (forward : P → List ℚ → List ℚ) (optStep : P → Batch → P)
    (m : Model P) (args : Args) (batches : List Batch) : TrainOut P :=
  let args' := { args with device := "cpu" }
  let out := trainLoop forward optStep args' batches m.params 0 0
  { result := if out.2.2 = 0 then .error .nameError
      else .ok (out.2.1 / (out.2.2 : ℚ))
    model := { params := out.1, training := true }
    args := args' }

/-- The batch loop of `val` (lines 84-95): reshape (unconditionally this
time), forward, MSE loss, baseline MSE of the raw input against ground truth,
and the PSNR of each as `10 * log10(1 / mse)`; accumulates `total_loss`,
`total_psnr`, `total_org_psnr`. -/
noncomputable def valLoop {P : Type} (forward : P → List ℚ → List ℚ) (p : P) :
    List Batch → ℚ → ℝ → ℝ → ℚ × ℝ × ℝ
  | [], tl, tp, tq => (tl, tp, tq)
  | b :: bs, tl, tp, tq =>
      let loss := mseLoss (forward p (viewPatches b.inp)) (viewPatches b.gt)
      let orgMse := mseLoss (viewPatches b.inp) (viewPatches b.gt)
      valLoop forward p bs (tl + loss)
        (tp + 10 * Real.logb 10 (1 / (loss : ℝ)))
        (tq + 10 * Real.logb 10 (1 / (orgMse : ℝ)))

/-- What a call to `val` leaves behind: the returned mean loss (or the
uncaught error), the accumulated totals, the model state and the `args`
object. -/
structure ValOut (P : Type) where
  meanLoss : Except TVErr ℚ
  totalLoss : ℚ
  totalPsnr : ℝ
  totalOrgPsnr : ℝ
  model : Model P
  args : Args

/-- The `val` function (src/train_val.py lines 77-105).  Line 78 assigns
`args.device = 'cpu'`; `model.eval()` clears the training flag; the loop runs
under `torch.no_grad()` and contains no optimizer step, so the parameters are
left untouched; the returned `total_loss / len(dataloader)` raises
`ZeroDivisionError` when the dataloader is empty. -/
noncomputable def val {P : Type} (forward : P → List ℚ → List ℚ) (m : Model P)
    (args : Args) (batches : List Batch) : ValOut P :=
  let args' := { args with device := "cpu" }
  let out := valLoop forward m.params batches 0 0 0
  { meanLoss := if batches.length = 0 then .error .zeroDivisionError
      else .ok (out.1 / (batches.length : ℚ))
    totalLoss := out.1
    totalPsnr := out.2.1
    totalOrgPsnr := out.2.2
    model := { params := m.params, training := false }
    args := args' }

/-- The values `main` (src/train_val.py lines 108-130) actually passes to its
collaborators, one field per constructor/call site: the dataset paths and
patch parameters (lines 118-119), the dataloader batch sizes, shuffle flags
and worker count (lines 120-121), the device the model is moved to (lines
112, 125), the pretrained path (line 123), the optimizer's initial learning
rate (line 127), and the loop bounds (lines 133, 143). -/
structure Wiring where
  trainDataPath : String
  valDataPath : String
  patchN : ℕ
  patchSize : ℕ
  trainLoaderBatchSize : ℕ
  valLoaderBatchSize : ℕ
  trainShuffle : Bool
  valShuffle : Bool
  numWorkers : ℕ
  modelDevice : String
  pretrainedPath : String
  initialLr : ℚ
  numEpochs : ℕ
  saveInterval : ℕ
  saveDir : String
  deriving DecidableEq, Repr

/-- How `main` wires the parsed args into its collaborators.  Line 112 binds
`device = 'cpu'` unconditionally (ignoring `args.device`) and line 125 moves
the model there; both `DataLoader`s are built with the literal
`batch_size=1` (ignoring `args.batch_size`); everything else is read from its
flag. -/
def mainWiring (args : Args) : Wiring where
  trainDataPath := args.train_path
  valDataPath := args.val_path
  patchN := args.patch_n
  patchSize := args.patch_size
  trainLoaderBatchSize := 1
  valLoaderBatchSize := 1
  trainShuffle := true
  valShuffle := false
  numWorkers := args.num_workers
  modelDevice := "cpu"
  pretrainedPath := args.pretrained
  initialLr := args.lr
  numEpochs := args.num_epochs
  saveInterval := args.save_interval
  saveDir := args.save_dir

/-- A checkpoint write performed by the epoch loop: `torch.save` of the model
state dict, either the best-model write (line 141) or the periodic write
(line 144), tagged with the epoch that performed it. -/
inductive SaveEvent where
  | best (epoch : ℕ)
  | checkpoint (epoch : ℕ)
  deriving DecidableEq, Repr

/-- The file path each save event writes to, matching the format strings
`'{}/model_best.pth'` and `'{}/model_checkpoint_{}.pth'`. -/
def eventPath (dir : String) : SaveEvent → String
  | .best _ => dir ++ "/model_best.pth"
  | .checkpoint e => dir ++ "/model_checkpoint_" ++ toString e ++ ".pth"

/-- The checkpointing part of the epoch loop (lines 132-144), run from epoch
`e` for `n` more epochs with running best loss `best` (`float('inf')`
initially, modelled as `⊤ : WithTop ℚ`).  `vLoss i` is the mean validation
loss `val` returns for epoch `i` (abstracted: it depends on external data and
the model).  Each epoch appends the best-model write when `v_loss < best_loss`
(updating `best_loss`), then the periodic write when
`epoch % args.save_interval == 0`. -/
def runEpochs (si : ℕ) (vLoss : ℕ → ℚ) : ℕ → ℕ → WithTop ℚ → List SaveEvent
  | _, 0, _ => []
  | e, n + 1, best =>
      (if (vLoss e : WithTop ℚ) < best then [SaveEvent.best e] else [])
        ++ (if e % si = 0 then [SaveEvent.checkpoint e] else [])
        ++ runEpochs si vLoss (e + 1) n
            (if (vLoss e : WithTop ℚ) < best then (vLoss e : WithTop ℚ) else best)

/-- The whole epoch loop `for epoch in range(1, args.num_epochs + 1)` with
`best_loss = float('inf')`, returning the list of checkpoint writes it
performs. -/
def mainLoop (si numEpochs : ℕ) (vLoss : ℕ → ℚ) : List SaveEvent :=
  runEpochs si vLoss 1 numEpochs ⊤

/-- The minimum of the validation losses of the `n` epochs `e, e+1, …,
e+n-1`, as an element of `WithTop ℚ` (`⊤` for the empty range): the value the
running `best_loss` holds after those epochs. -/
def minLossFrom (vLoss : ℕ → ℚ) : ℕ → ℕ → WithTop ℚ
  | _, 0 => ⊤
  | e, n + 1 => min (vLoss e : WithTop ℚ) (minLossFrom vLoss (e + 1) n)

/-- Modelled from the spec: `torch.optim.lr_scheduler.ReduceLROnPlateau` is
framework code, not part of this repository's sources.  Following the spec's
words — a plateau-based learning-rate reduction scheduler in `min` mode with a
multiplicative `factor`, a `patience` of stagnant epochs, and a `min_lr`
floor — this is its configuration record. -/
structure Sched where
  factor : ℚ
  patience : ℕ
  minLr : ℚ
  deriving DecidableEq, Repr

/-- Modelled from the spec: the scheduler's mutable state — the best metric
seen so far (initially infinite), the count of consecutive epochs without
improvement, and the current learning rate. -/
structure SchedState where
  best : WithTop ℚ
  numBad : ℕ
  lr : ℚ
  deriving DecidableEq, Repr

/-- The scheduler state as constructed at line 128, with the optimizer's
initial learning rate `args.lr`. -/
def schedInit (lr0 : ℚ) : SchedState where
  best := ⊤
  numBad := 0
  lr := lr0

/-- Modelled from the spec: one `lr_scheduler.step(v_loss)` call (line 137),
fed once per epoch with the mean validation loss.  An improving metric resets
the stagnation count; otherwise the count grows, and once it exceeds
`patience` the learning rate is multiplied by `factor`, floored at `minLr`,
and the count resets. -/
def schedStep (c : Sched) (s : SchedState) (metric : ℚ) : SchedState :=
  if (metric : WithTop ℚ) < s.best then
    { s with best := (metric : WithTop ℚ), numBad := 0 }
  else if s.numBad + 1 > c.patience then
    { s with numBad := 0, lr := max (s.lr * c.factor) c.minLr }
  else
    { s with numBad := s.numBad + 1 }

/-- The scheduler state after being fed a sequence of per-epoch validation
losses, one `schedStep` per epoch. -/
def schedRun (c : Sched) : SchedState → List ℚ → SchedState
  | s, [] => s
  | s, metric :: ms => schedRun c (schedStep c s metric) ms

/-- The scheduler configuration constructed at line 128:
`ReduceLROnPlateau(optimizer, mode='min', factor=0.3, verbose=True,
patience=6, min_lr=1E-7)`. -/
def brdSched : Sched where
  factor := 3/10
  patience := 6
  minLr := 1/10^7

/-- The observable operations of one iteration of `train`'s batch loop, in
source order (lines 51-60). -/
inductive TrainOp where
  | reshapeInp
  | reshapeGt
  | toDeviceInp
  | toDeviceGt
  | forwardPass
  | lossAgainstGt
  | zeroGrad
  | backward
  | optimStep
  deriving DecidableEq, Repr

/-- The operation sequence one batch of `train` undergoes: the two reshapes
run only under the guard `if args.patch_size:` (lines 51-53), then the moves
to the device, the forward pass, the MSE loss, `optimizer.zero_grad()`,
`loss.backward()`, `optimizer.step()` (lines 54-60). -/
def trainBatchOps (args : Args) : List TrainOp :=
  (if args.patch_size ≠ 0 then [TrainOp.reshapeInp, TrainOp.reshapeGt] else [])
    ++ [TrainOp.toDeviceInp, TrainOp.toDeviceGt, TrainOp.forwardPass,
        TrainOp.lossAgainstGt, TrainOp.zeroGrad, TrainOp.backward, TrainOp.optimStep]

/-- The per-batch operation sequences of a training epoch over `n` batches:
the loop body is the same for every batch. -/
def trainEpochOps (args : Args) (n : ℕ) : List (List TrainOp) :=
  List.replicate n (trainBatchOps args)

/-! Helper lemmas -/

/-- The training batch loop accumulates exactly the per-batch losses and
counts exactly the batches. -/
theorem trainLoop_snd {P : Type} (forward : P → List ℚ → List ℚ)
    (optStep : P → Batch → P) (args : Args) :
    ∀ (bs : List Batch) (p : P) (tot : ℚ) (k : ℕ),
      (trainLoop forward optStep args bs p tot k).2 =
        (tot + (batchLosses forward optStep args bs p).sum, k + bs.length) := by
  intro bs
  induction bs with
  | nil => intro p tot k; simp [trainLoop, batchLosses]
  | cons b bs ih =>
      intro p tot k
      simp only [trainLoop, batchLosses, ih, List.sum_cons, List.length_cons]
      refine Prod.ext ?_ ?_
      · simp; ring
      · simp; omega

/-- The validation batch loop accumulates the per-batch MSE losses and the
per-batch PSNR values of the model output and of the raw input. -/
theorem valLoop_eq {P : Type} (forward : P → List ℚ → List ℚ) (p : P) :
    ∀ (bs : List Batch) (tl : ℚ) (tp tq : ℝ),
      valLoop forward p bs tl tp tq =
        (tl + (bs.map (fun b =>
            mseLoss (forward p (viewPatches b.inp)) (viewPatches b.gt))).sum,
         tp + (bs.map (fun b => 10 * Real.logb 10
            (1 / ((mseLoss (forward p (viewPatches b.inp)) (viewPatches b.gt) : ℚ) : ℝ)))).sum,
         tq + (bs.map (fun b => 10 * Real.logb 10
            (1 / ((mseLoss (viewPatches b.inp) (viewPatches b.gt) : ℚ) : ℝ)))).sum) := by
  intro bs
  induction bs with
  | nil => intro tl tp tq; simp [valLoop]
  | cons b bs ih =>
      intro tl tp tq
      simp only [valLoop, ih, List.map_cons, List.sum_cons]
      refine Prod.ext ?_ (Prod.ext ?_ ?_) <;> simp <;> ring

/-- On a linear order, the branch `if x < b then x else b` is `min x b`
(the shape of the running-best update in the epoch loop). -/
theorem ite_lt_eq_min {α : Type} [LinearOrder α] (x b : α) :
    (if x < b then x else b) = min x b := by
  split
  · exact (min_eq_left (le_of_lt (by assumption))).symm
  · exact (min_eq_right (le_of_not_lt (by assumption))).symm

/-- Unfolding lemma for `minLossFrom` on a positive count. -/
theorem minLossFrom_succ (v : ℕ → ℚ) (e k : ℕ) :
    minLossFrom v e (k + 1) = min (v e : WithTop ℚ) (minLossFrom v (e + 1) k) := rfl

/-! Claims -/

/-- C2, counterexample: the claim "no field of the args object is modified
after parsing, in particular not by the train or val functions" is false —
`train` assigns `args.device = 'cpu'` (line 47), so calling it on an args
object whose device is `"cuda:0"` changes the object. -/
theorem train_mutates_args :
    (train (fun (_ : Unit) t => t) (fun p _ => p) ⟨(), false⟩
        { defaultArgs with device := "cuda:0" } []).args ≠
      { defaultArgs with device := "cuda:0" } :=
  fun h => absurd (congrArg Args.device h) (by decide)

/-- C2, amended: every field of the args object except `device` is unchanged
by `train` and `val`; both functions overwrite `args.device` with `"cpu"`
(lines 47 and 78) and touch nothing else. -/
theorem train_val_args_effect {P : Type} (forward : P → List ℚ → List ℚ)
    (optStep : P → Batch → P) (m : Model P) (args : Args) (batches : List Batch) :
    (train forward optStep m args batches).args = { args with device := "cpu" } ∧
      (val forward m args batches).args = { args with device := "cpu" } :=
  ⟨rfl, rfl⟩

/-- C3, counterexample: the claim "for every value passed to the --device
flag, the device on which the model and data are placed equals that value" is
false — `main` binds `device = 'cpu'` unconditionally (line 112) and moves the
model there (line 125), so passing `--device cuda:0` still places the model on
`"cpu"`. -/
theorem device_flag_ignored :
    (mainWiring { defaultArgs with device := "cuda:0" }).modelDevice ≠ "cuda:0" := by
  decide

/-- C3, amended: the configuration items `main` uses are passed through from
their CLI flags, with two exceptions: the model (and hence the data) is always
placed on device `"cpu"` regardless of `--device`, and both dataloaders are
built with batch size 1 regardless of `--batch_size`. -/
theorem main_wiring_from_flags (args : Args) :
    mainWiring args =
      { trainDataPath := args.train_path
        valDataPath := args.val_path
        patchN := args.patch_n
        patchSize := args.patch_size
        trainLoaderBatchSize := 1
        valLoaderBatchSize := 1
        trainShuffle := true
        valShuffle := false
        numWorkers := args.num_workers
        modelDevice := "cpu"
        pretrainedPath := args.pretrained
        initialLr := args.lr
        numEpochs := args.num_epochs
        saveInterval := args.save_interval
        saveDir := args.save_dir } :=
  rfl

/-- C4: for every non-empty training dataloader, `train` returns the sum of
the per-batch loss values (computed with the parameters evolving by one
optimizer step per batch) divided by the number of batches processed. -/
theorem train_returns_mean_loss {P : Type} (forward : P → List ℚ → List ℚ)
    (optStep : P → Batch → P) (m : Model P) (args : Args)
    (batches : List Batch) (h : batches ≠ []) :
    (train forward optStep m args batches).result =
      .ok ((batchLosses forward optStep { args with device := "cpu" } batches m.params).sum
        / (batches.length : ℚ)) := by
  show (if (trainLoop forward optStep { args with device := "cpu" } batches m.params 0 0).2.2 = 0
      then (.error .nameError : Except TVErr ℚ)
      else .ok ((trainLoop forward optStep { args with device := "cpu" } batches m.params 0 0).2.1
        / ((trainLoop forward optStep { args with device := "cpu" } batches m.params 0 0).2.2 : ℚ))) = _
  rw [trainLoop_snd]
  have hlen : batches.length ≠ 0 := fun hz => h (List.length_eq_zero.mp hz)
  simp [hlen]

/-- C4, witness. -/
theorem train_returns_mean_loss_witness :
    ([(⟨[1], [0]⟩ : Batch)] : List Batch) ≠ [] ∧
      (train (fun (_ : Unit) t => t) (fun p _ => p) ⟨(), false⟩ defaultArgs
          [(⟨[1], [0]⟩ : Batch)]).result =
        .ok ((batchLosses (fun (_ : Unit) t => t) (fun p _ => p)
            { defaultArgs with device := "cpu" } [(⟨[1], [0]⟩ : Batch)] ()).sum
          / (([(⟨[1], [0]⟩ : Batch)] : List Batch).length : ℚ)) :=
  ⟨by decide, train_returns_mean_loss (fun (_ : Unit) t => t) (fun p _ => p) ⟨(), false⟩
    defaultArgs [(⟨[1], [0]⟩ : Batch)] (by decide)⟩

/-- C7, counterexample: the claim that the reshape happens for every batch
"not conditionally" is false — the reshape is guarded by
`if args.patch_size:` (line 51), so with `--patch_size 0` no batch is
reshaped. -/
theorem reshape_skipped_when_patch_size_zero :
    TrainOp.reshapeInp ∉ trainBatchOps { defaultArgs with patch_size := 0 } := by
  decide

/-- C7, amended: whenever `patch_size` is nonzero (it is 50 by default), every
batch of a training epoch undergoes, in order: reshape of the input and
ground-truth tensors, the moves to the device, the forward pass, the MSE loss
against ground truth, clearing of prior gradients, backpropagation, and one
optimizer step; the reshape is conditional on `patch_size` being nonzero. -/
theorem train_batch_op_order (args : Args) (n : ℕ) (h : args.patch_size ≠ 0) :
    trainBatchOps args =
      [TrainOp.reshapeInp, TrainOp.reshapeGt, TrainOp.toDeviceInp, TrainOp.toDeviceGt,
        TrainOp.forwardPass, TrainOp.lossAgainstGt, TrainOp.zeroGrad, TrainOp.backward,
        TrainOp.optimStep] ∧
      ∀ ops ∈ trainEpochOps args n, ops = trainBatchOps args := by
  constructor
  · simp [trainBatchOps, h]
  · intro ops hops
    exact List.eq_of_mem_replicate hops

/-- C7, witness. -/
theorem train_batch_op_order_witness :
    defaultArgs.patch_size ≠ 0 ∧
      (trainBatchOps defaultArgs =
        [TrainOp.reshapeInp, TrainOp.reshapeGt, TrainOp.toDeviceInp, TrainOp.toDeviceGt,
          TrainOp.forwardPass, TrainOp.lossAgainstGt, TrainOp.zeroGrad, TrainOp.backward,
          TrainOp.optimStep] ∧
        ∀ ops ∈ trainEpochOps defaultArgs 3, ops = trainBatchOps defaultArgs) :=
  ⟨by decide, train_batch_op_order defaultArgs 3 (by decide)⟩

/-- C9: a call to `val` leaves the model's learnable parameters unchanged and
clears the training flag (`model.eval()`, inference mode); the validation
dataloader `main` builds for it has batch size 1. -/
theorem val_preserves_params {P : Type} (forward : P → List ℚ → List ℚ)
    (m : Model P) (args : Args) (batches : List Batch) :
    (val forward m args batches).model.params = m.params ∧
      (val forward m args batches).model.training = false ∧
      (mainWiring args).valLoaderBatchSize = 1 :=
  ⟨rfl, rfl, rfl⟩

/-- C10: on an empty dataloader both `train` and `val` fail with an uncaught
error instead of returning a value: `train`'s final division reads `batch_i`,
which was never bound (NameError), and `val` divides by `len(dataloader) = 0`
(ZeroDivisionError). -/
theorem empty_loader_errors {P : Type} (forward : P → List ℚ → List ℚ)
    (optStep : P → Batch → P) (m : Model P) (args : Args) :
    (train forward optStep m args []).result = .error .nameError ∧
      (val forward m args []).meanLoss = .error .zeroDivisionError :=
  ⟨rfl, rfl⟩

/-- Membership of a periodic checkpoint write in the epoch loop: epoch `e`
writes `model_checkpoint_<e>.pth` exactly when it lies in the range of the
loop and `e % save_interval == 0`. -/
theorem checkpoint_mem_runEpochs (si : ℕ) (v : ℕ → ℚ) :
    ∀ (n e0 : ℕ) (b : WithTop ℚ) (e : ℕ),
      (SaveEvent.checkpoint e ∈ runEpochs si v e0 n b ↔
        e0 ≤ e ∧ e < e0 + n ∧ e % si = 0) := by
  intro n
  induction n with
  | zero =>
      intro e0 b e
      simp only [runEpochs, List.not_mem_nil, false_iff]
      rintro ⟨h1, h2, -⟩
      omega
  | succ n ih =>
      intro e0 b e
      simp only [runEpochs, List.mem_append, ih]
      have h1 : (SaveEvent.checkpoint e ∈
          (if (v e0 : WithTop ℚ) < b then [SaveEvent.best e0] else [])) ↔ False := by
        split <;> simp
      have h2 : (SaveEvent.checkpoint e ∈
          (if e0 % si = 0 then [SaveEvent.checkpoint e0] else [])) ↔
          (e = e0 ∧ e0 % si = 0) := by
        split
        · next hc => simp [hc]
        · next hc => simp; rintro rfl; exact hc
      rw [h1, h2]
      simp only [false_or]
      constructor
      · rintro (⟨rfl, hm⟩ | ⟨ha, hb2, hm⟩)
        · exact ⟨Nat.le_refl e, by omega, hm⟩
        · exact ⟨by omega, by omega, hm⟩
      · rintro ⟨ha, hb2, hm⟩
        rcases Nat.eq_or_lt_of_le ha with heq | hlt
        · exact Or.inl ⟨heq.symm, heq ▸ hm⟩
        · exact Or.inr ⟨hlt, by omega, hm⟩

/-- C8: for every positive `save_interval` and every epoch in the loop range
that is a multiple of it, the loop writes the periodic checkpoint
`<save_dir>/model_checkpoint_<epoch>.pth`, whatever the validation losses
(in particular whether or not the loss improved that epoch). -/
theorem periodic_checkpoint_written (si N e : ℕ) (v : ℕ → ℚ) (dir : String)
    (_hsi : 0 < si) (hdvd : si ∣ e) (h1 : 1 ≤ e) (h2 : e ≤ N) :
    SaveEvent.checkpoint e ∈ mainLoop si N v ∧
      eventPath dir (SaveEvent.checkpoint e) =
        dir ++ "/model_checkpoint_" ++ toString e ++ ".pth" := by
  refine ⟨?_, rfl⟩
  rw [mainLoop, checkpoint_mem_runEpochs]
  exact ⟨h1, by omega, Nat.mod_eq_zero_of_dvd hdvd⟩

/-- C8, witness. -/
theorem periodic_checkpoint_written_witness :
    (0 < 2 ∧ 2 ∣ 2 ∧ 1 ≤ 2 ∧ 2 ≤ 3) ∧
      (SaveEvent.checkpoint 2 ∈ mainLoop 2 3 (fun _ => 1) ∧
        eventPath "./ckpt/1" (SaveEvent.checkpoint 2) =
          "./ckpt/1" ++ "/model_checkpoint_" ++ toString 2 ++ ".pth") :=
  ⟨by decide, periodic_checkpoint_written 2 3 2 (fun _ => 1) "./ckpt/1"
    (by decide) (by decide) (by decide) (by decide)⟩

/-- Membership of a best-model write in the epoch loop: epoch `e` writes
`model_best.pth` exactly when it lies in the range of the loop and its
validation loss is strictly below both the incoming running best and the
minimum loss of the earlier epochs of the range. -/
theorem best_mem_runEpochs (si : ℕ) (v : ℕ → ℚ) :
    ∀ (n e0 : ℕ) (b : WithTop ℚ) (e : ℕ),
      (SaveEvent.best e ∈ runEpochs si v e0 n b ↔
        e0 ≤ e ∧ e < e0 + n ∧
          (v e : WithTop ℚ) < min b (minLossFrom v e0 (e - e0))) := by
  intro n
  induction n with
  | zero =>
      intro e0 b e
      simp only [runEpochs, List.not_mem_nil, false_iff]
      rintro ⟨h1, h2, -⟩
      omega
  | succ n ih =>
      intro e0 b e
      simp only [runEpochs, List.mem_append, ih]
      have h1 : (SaveEvent.best e ∈
          (if (v e0 : WithTop ℚ) < b then [SaveEvent.best e0] else [])) ↔
          (e = e0 ∧ (v e0 : WithTop ℚ) < b) := by
        split
        · next hc => simp [hc]
        · next hc => simp only [List.not_mem_nil, false_iff]
                     rintro ⟨rfl, hvb⟩
                     exact hc hvb
      have h2 : (SaveEvent.best e ∈
          (if e0 % si = 0 then [SaveEvent.checkpoint e0] else [])) ↔ False := by
        split <;> simp
      rw [h1, h2]
      simp only [or_false]
      have hmin : min (if (v e0 : WithTop ℚ) < b then (v e0 : WithTop ℚ) else b)
          (minLossFrom v (e0 + 1) (e - (e0 + 1))) =
          min b (min (v e0 : WithTop ℚ) (minLossFrom v (e0 + 1) (e - (e0 + 1)))) := by
        rw [ite_lt_eq_min, min_assoc, min_left_comm]
      constructor
      · rintro (⟨rfl, hvb⟩ | ⟨ha, hb2, hm⟩)
        · refine ⟨Nat.le_refl e, by omega, ?_⟩
          rw [Nat.sub_self, show minLossFrom v e 0 = ⊤ from rfl, min_eq_left le_top]
          exact hvb
        · refine ⟨by omega, by omega, ?_⟩
          rw [show e - e0 = (e - (e0 + 1)) + 1 by omega, minLossFrom_succ, ← hmin]
          exact hm
      · rintro ⟨ha, hb2, hm⟩
        rcases Nat.eq_or_lt_of_le ha with heq | hlt
        · subst heq
          rw [Nat.sub_self, show minLossFrom v e0 0 = ⊤ from rfl,
            min_eq_left le_top] at hm
          exact Or.inl ⟨rfl, hm⟩
        · refine Or.inr ⟨hlt, by omega, ?_⟩
          rw [show e - e0 = (e - (e0 + 1)) + 1 by omega, minLossFrom_succ] at hm
          rw [hmin]
          exact hm

/-- C1: the epoch loop writes the best-model checkpoint `model_best.pth` in
epoch `e` if and only if that epoch's mean validation loss is strictly less
than the minimum of the losses of all previous epochs — the running
`best_loss`, initialised to `float('inf')` (so `minLossFrom v 1 (e-1) = ⊤`
for the first epoch, and any finite first-epoch loss triggers a write). -/
theorem best_checkpoint_iff (si N : ℕ) (v : ℕ → ℚ) (e : ℕ) (h : 1 ≤ e) :
    (SaveEvent.best e ∈ mainLoop si N v ↔
      e ≤ N ∧ (v e : WithTop ℚ) < minLossFrom v 1 (e - 1)) := by
  rw [mainLoop, best_mem_runEpochs]
  constructor
  · rintro ⟨-, h2, h3⟩
    refine ⟨by omega, ?_⟩
    rwa [min_eq_right le_top, show e - 1 = e - (1 : ℕ) from rfl] at h3
  · rintro ⟨h2, h3⟩
    refine ⟨h, by omega, ?_⟩
    rwa [min_eq_right le_top]

/-- C1, witness: with losses 5, 3, 4 the second epoch improves on the running
best and the theorem decides that its best-model write occurs. -/
theorem best_checkpoint_iff_witness :
    1 ≤ 2 ∧
      (SaveEvent.best 2 ∈ mainLoop 1 3 (fun e => if e = 1 then (5 : ℚ) else 3) ↔
        2 ≤ 3 ∧ (((fun e => if e = 1 then (5 : ℚ) else 3) 2 : ℚ) : WithTop ℚ) <
          minLossFrom (fun e => if e = 1 then (5 : ℚ) else 3) 1 (2 - 1)) :=
  ⟨by decide, best_checkpoint_iff 1 3 (fun e => if e = 1 then (5 : ℚ) else 3) 2 (by decide)⟩

/-- C6: for every validation batch, `val` computes the PSNR of the model
output and of the raw noisy input as `10 * log10(1 / mse)` (accumulated into
`total_psnr` and `total_org_psnr`), and for every non-empty validation
dataloader it returns the sum of the per-batch MSE losses divided by the
number of batches in the dataloader. -/
theorem val_mean_and_psnr {P : Type} (forward : P → List ℚ → List ℚ) (m : Model P)
    (args : Args) (batches : List Batch) (h : batches ≠ []) :
    (val forward m args batches).meanLoss =
      .ok ((batches.map (fun b =>
          mseLoss (forward m.params (viewPatches b.inp)) (viewPatches b.gt))).sum
        / (batches.length : ℚ)) ∧
    (val forward m args batches).totalPsnr =
      (batches.map (fun b => 10 * Real.logb 10
        (1 / ((mseLoss (forward m.params (viewPatches b.inp)) (viewPatches b.gt) : ℚ) : ℝ)))).sum ∧
    (val forward m args batches).totalOrgPsnr =
      (batches.map (fun b => 10 * Real.logb 10
        (1 / ((mseLoss (viewPatches b.inp) (viewPatches b.gt) : ℚ) : ℝ)))).sum := by
  have hlen : batches.length ≠ 0 := fun hz => h (List.length_eq_zero.mp hz)
  refine ⟨?_, ?_, ?_⟩ <;> simp [val, valLoop_eq, hlen]

/-- C6, witness: a single validation batch with input `[1]` and ground truth
`[0]` under an identity forward. -/
theorem val_mean_and_psnr_witness :
    ([(⟨[1], [0]⟩ : Batch)] : List Batch) ≠ [] ∧
      ((val (fun (_ : Unit) t => t) ⟨(), true⟩ defaultArgs [⟨[1], [0]⟩]).meanLoss =
          .ok ((([(⟨[1], [0]⟩ : Batch)]).map (fun b =>
              mseLoss (viewPatches b.inp) (viewPatches b.gt))).sum
            / (([(⟨[1], [0]⟩ : Batch)] : List Batch).length : ℚ)) ∧
        (val (fun (_ : Unit) t => t) ⟨(), true⟩ defaultArgs [⟨[1], [0]⟩]).totalPsnr =
          (([(⟨[1], [0]⟩ : Batch)]).map (fun b => 10 * Real.logb 10
            (1 / ((mseLoss (viewPatches b.inp) (viewPatches b.gt) : ℚ) : ℝ)))).sum ∧
        (val (fun (_ : Unit) t => t) ⟨(), true⟩ defaultArgs [⟨[1], [0]⟩]).totalOrgPsnr =
          (([(⟨[1], [0]⟩ : Batch)]).map (fun b => 10 * Real.logb 10
            (1 / ((mseLoss (viewPatches b.inp) (viewPatches b.gt) : ℚ) : ℝ)))).sum) :=
  ⟨by decide, val_mean_and_psnr (fun (_ : Unit) t => t) ⟨(), true⟩ defaultArgs
    [⟨[1], [0]⟩] (by decide)⟩

/-- The scheduler's stagnation count never grows by more than one per step. -/
theorem schedStep_numBad_le (c : Sched) (s : SchedState) (m : ℚ) :
    (schedStep c s m).numBad ≤ s.numBad + 1 := by
  unfold schedStep
  split
  · exact Nat.zero_le _
  · split
    · exact Nat.zero_le _
    · exact Nat.le_refl _

/-- The scheduler changes the learning rate only in the reduction branch,
which requires the stagnation count to have exceeded the patience. -/
theorem schedStep_lr_change (c : Sched) (s : SchedState) (m : ℚ)
    (h : (schedStep c s m).lr ≠ s.lr) : c.patience < s.numBad + 1 := by
  unfold schedStep at h
  split at h
  · exact absurd rfl h
  · split at h
    · next hcnt => exact hcnt
    · exact absurd rfl h

/-- Along any run of the scheduler, a net learning-rate decrease needs
strictly more steps than the patience minus the incoming stagnation count. -/
theorem schedRun_reduction_length (c : Sched) :
    ∀ (ms : List ℚ) (s : SchedState),
      (schedRun c s ms).lr < s.lr → c.patience < ms.length + s.numBad := by
  intro ms
  induction ms with
  | nil => intro s h; exact absurd h (lt_irrefl _)
  | cons m ms ih =>
      intro s h
      by_cases hlr : (schedStep c s m).lr = s.lr
      · have h' : (schedRun c (schedStep c s m) ms).lr < (schedStep c s m).lr := by
          rw [hlr]; exact h
        have h2 := ih (schedStep c s m) h'
        have h3 := schedStep_numBad_le c s m
        simp only [List.length_cons]
        omega
      · have h2 := schedStep_lr_change c s m hlr
        simp only [List.length_cons]
        omega

/-- C5: for the scheduler of line 128 (factor 0.3, patience 6, floor 1e-7,
fed once per epoch with the mean validation loss), a step reduces the
learning rate only when the stagnation count — the number of consecutive
preceding epochs whose loss failed to improve on the best — has already
reached the patience of 6 and the current epoch's loss again fails to
improve, and any reduced rate is still at least the floor `1e-7`; moreover,
starting from a fresh scheduler, no reduction at all can happen within the
first 6 epochs. -/
theorem lr_reduction_policy :
    (∀ (s : SchedState) (metric : ℚ),
        (schedStep brdSched s metric).lr < s.lr →
          6 ≤ s.numBad ∧ ¬ ((metric : WithTop ℚ) < s.best) ∧
            (1 / 10 ^ 7 : ℚ) ≤ (schedStep brdSched s metric).lr) ∧
    (∀ (lr0 : ℚ) (ms : List ℚ),
        (schedRun brdSched (schedInit lr0) ms).lr < lr0 → 6 < ms.length) := by
  constructor
  · intro s metric
    unfold schedStep
    split
    · intro hlt; exact absurd hlt (lt_irrefl _)
    · next hni =>
      split
      · next hcnt =>
        intro hlt
        have hp : brdSched.patience = 6 := rfl
        rw [hp] at hcnt
        exact ⟨by omega, hni, le_max_right _ _⟩
      · intro hlt; exact absurd hlt (lt_irrefl _)
  · intro lr0 ms h
    have h2 := schedRun_reduction_length brdSched ms (schedInit lr0) h
    have hp : brdSched.patience = 6 := rfl
    rw [hp] at h2
    simpa [schedInit] using h2

/-- C5, witness: a scheduler state with a stagnation count of 6 and rate 1,
fed a non-improving loss: the rate drops to 0.3, still above the floor. -/
theorem lr_reduction_policy_witness :
    (schedStep brdSched ⟨((1 : ℚ) : WithTop ℚ), 6, 1⟩ 2).lr < (1 : ℚ) ∧
      (6 ≤ (6 : ℕ) ∧ ¬ (((2 : ℚ) : WithTop ℚ) < ((1 : ℚ) : WithTop ℚ)) ∧
        (1 / 10 ^ 7 : ℚ) ≤ (schedStep brdSched ⟨((1 : ℚ) : WithTop ℚ), 6, 1⟩ 2).lr) := by
  have h : (schedStep brdSched ⟨((1 : ℚ) : WithTop ℚ), 6, 1⟩ 2).lr < (1 : ℚ) := by
    norm_num [schedStep, brdSched, WithTop.coe_lt_coe]
  exact ⟨h, lr_reduction_policy.1 ⟨((1 : ℚ) : WithTop ℚ), 6, 1⟩ 2 h⟩

end BRDNet
